import Mathlib

/-!
Shallow embedding of the SupportBee ticket-export script (src/app.py),
centred on the pure core `create_csv` and its helper `safe_get`.

Python values delivered by `response.json()` are modelled by the inductive
type `Val` (JSON-like data: None, bool, int, float, str, list, dict).
Dicts are association lists; Python's `dict.get` is first-match lookup.
Python exceptions are modelled by `Except PyErr`; a raised exception inside
`create_csv` aborts the whole batch, which the `Except` monad mirrors.
Floats are modelled as rationals; timestamps as proleptic-Gregorian
instants in seconds relative to 1970-01-01T00:00:00Z.
-/

namespace SupportBee

/-- Python/JSON values as delivered by the SupportBee API and manipulated by
`create_csv`. `vRat` stands for Python floats (only ever produced by the
metric arithmetic, never present in API input). -/
inductive Val where
  | vNone : Val
  | vBool : Bool → Val
  | vInt : Int → Val
  | vRat : ℚ → Val
  | vStr : String → Val
  | vList : List Val → Val
  | vDict : List (String × Val) → Val

/-- Python truthiness (`bool(x)`): None, False, 0, 0.0, empty string, empty
list and empty dict are falsy; everything else is truthy. -/
def truthy : Val → Bool
  | .vNone => false
  | .vBool b => b
  | .vInt n => n != 0
  | .vRat q => q != 0
  | .vStr s => s != ""
  | .vList xs => !xs.isEmpty
  | .vDict d => !d.isEmpty

/-- First-match association-list lookup, the model of Python dict access
(a Python dict has unique keys, so first-match is exact). -/
def lookup : List (String × Val) → String → Option Val
  | [], _ => none
  | (k, v) :: rest, key => if k = key then some v else lookup rest key

/-- Python `d.get(key, default)`. -/
def getD (d : List (String × Val)) (k : String) (dflt : Val) : Val :=
  (lookup d k).getD dflt

/-- Python `key in d`. -/
def hasKey (d : List (String × Val)) (k : String) : Bool :=
  (lookup d k).isSome

/-- True exactly when the value is `{}` — the only value Python's `== {}`
comparison (used at the end of `safe_get`) accepts. -/
def isEmptyDict : Val → Bool
  | .vDict [] => true
  | _ => false

/-- src/app.py lines 66-72: walk `keys` through nested dicts, substituting
`{}` for a missing key, bailing out with `default` on a non-dict, and
returning `default` if the final value equals `{}`. -/
def safe_get : Val → List String → Val → Val
  | v, [], dflt => if isEmptyDict v then dflt else v
  | .vDict d, k :: ks, dflt => safe_get (getD d k (.vDict [])) ks dflt
  | _, _ :: _, dflt => dflt

/-- The Python exception classes that the statements under `create_csv` can
raise, up to the granularity the claims need. -/
inductive PyErr where
  | attributeError : PyErr
  | typeError : PyErr
  | valueError : PyErr
  | parserError : PyErr
deriving DecidableEq, Repr

/-- `mapM` for `Except` with the first-error (first raised exception)
semantics of a Python loop or comprehension. -/
def exceptMapM (f : α → Except PyErr β) : List α → Except PyErr (List β)
  | [] => .ok []
  | x :: xs => do
    let y ← f x
    let ys ← exceptMapM f xs
    .ok (y :: ys)

/-! ### Calendar arithmetic (`datetime` / `dateutil` model) -/

/-- A parsed naive-UTC datetime, as produced by `datetime.strptime` or
`dateutil.parser.parse` on the UTC timestamps this app handles. -/
structure PDateTime where
  year : Nat
  month : Nat
  day : Nat
  hour : Nat
  minute : Nat
  second : Nat
deriving DecidableEq, Repr

def isLeap (y : Nat) : Bool :=
  (y % 4 == 0 && y % 100 != 0) || y % 400 == 0

def daysInYear (y : Nat) : Nat := if isLeap y then 366 else 365

def monthLen (y m : Nat) : Nat :=
  if m = 2 then (if isLeap y then 29 else 28)
  else if m = 4 ∨ m = 6 ∨ m = 9 ∨ m = 11 then 30
  else 31

/-- Days from 1970-01-01 to `y`-01-01 (negative for years before 1970). -/
def daysBeforeYear (y : Nat) : Int :=
  if 1970 ≤ y then
    (((List.range (y - 1970)).foldl (fun a i => a + daysInYear (1970 + i)) 0 : Nat) : Int)
  else
    -(((List.range (1970 - y)).foldl (fun a i => a + daysInYear (y + i)) 0 : Nat) : Int)

/-- Days from `y`-01-01 to `y`-`m`-01. -/
def daysBeforeMonth (y m : Nat) : Nat :=
  (List.range (m - 1)).foldl (fun a i => a + monthLen y (i + 1)) 0

/-- Seconds since the Unix epoch of a naive-UTC datetime; the quantity
`datetime` subtraction (`.total_seconds()`) is based on. -/
def toEpochSeconds (dt : PDateTime) : Int :=
  (daysBeforeYear dt.year + (daysBeforeMonth dt.year dt.month : Int)
      + ((dt.day - 1 : Nat) : Int)) * 86400
    + ((dt.hour * 3600 + dt.minute * 60 + dt.second : Nat) : Int)

def digitVal (c : Char) : Option Nat :=
  if c.isDigit then some (c.toNat - 48) else none

def num2 (a b : Char) : Option Nat := do
  pure ((← digitVal a) * 10 + (← digitVal b))

def num4 (a b c d : Char) : Option Nat := do
  pure (((← digitVal a) * 10 + (← digitVal b)) * 100
    + ((← digitVal c) * 10 + (← digitVal d)))

/-- Field validation done by the `datetime` constructor (year ≥ 1, month
1-12, day within the month, time fields in range). -/
def mkDateTime (y mo d h mi s : Nat) : Option PDateTime :=
  if 1 ≤ y ∧ 1 ≤ mo ∧ mo ≤ 12 ∧ 1 ≤ d ∧ d ≤ monthLen y mo
      ∧ h ≤ 23 ∧ mi ≤ 59 ∧ s ≤ 59 then
    some ⟨y, mo, d, h, mi, s⟩
  else none

/-- `datetime.strptime(s, "%Y-%m-%dT%H:%M:%SZ")`: the strict fixed-width
ISO-8601-UTC parse; `none` models the `ValueError` it otherwise raises. -/
def strptimeISO (s : String) : Option PDateTime :=
  match s.data with
  | [y1, y2, y3, y4, c1, m1, m2, c2, d1, d2, ct, h1, h2, c3, n1, n2, c4, s1, s2, cz] =>
    if c1 = '-' ∧ c2 = '-' ∧ ct = 'T' ∧ c3 = ':' ∧ c4 = ':' ∧ cz = 'Z' then do
      mkDateTime (← num4 y1 y2 y3 y4) (← num2 m1 m2) (← num2 d1 d2)
        (← num2 h1 h2) (← num2 n1 n2) (← num2 s1 s2)
    else none
  | _ => none

/-- ISO-8601 without the trailing Z, one of the further formats
`dateutil.parser.parse` accepts. -/
def parseISONoZ (s : String) : Option PDateTime :=
  match s.data with
  | [y1, y2, y3, y4, c1, m1, m2, c2, d1, d2, ct, h1, h2, c3, n1, n2, c4, s1, s2] =>
    if c1 = '-' ∧ c2 = '-' ∧ ct = 'T' ∧ c3 = ':' ∧ c4 = ':' then do
      mkDateTime (← num4 y1 y2 y3 y4) (← num2 m1 m2) (← num2 d1 d2)
        (← num2 h1 h2) (← num2 n1 n2) (← num2 s1 s2)
    else none
  | _ => none

/-- Date-only ISO-8601, parsed by `dateutil` with a midnight default. -/
def parseDateOnly (s : String) : Option PDateTime :=
  match s.data with
  | [y1, y2, y3, y4, c1, m1, m2, c2, d1, d2] =>
    if c1 = '-' ∧ c2 = '-' then do
      mkDateTime (← num4 y1 y2 y3 y4) (← num2 m1 m2) (← num2 d1 d2) 0 0 0
    else none
  | _ => none

/-- Model of `dateutil.parser.parse` restricted to the date shapes this
pipeline can meet: it agrees with the strict `strptimeISO` format and
additionally accepts ISO-8601 without `Z` and date-only strings; on
anything else it fails (`dateutil.parser.ParserError`), which `none`
models. The claims rely only on its agreement with the strict format and
on its failure on non-date text. -/
def dateutil_parse (s : String) : Option PDateTime :=
  match strptimeISO s with
  | some dt => some dt
  | none =>
    match parseISONoZ s with
    | some dt => some dt
    | none => parseDateOnly s

def pad2 (n : Nat) : String :=
  if n < 10 then "0" ++ toString n else toString n

def pad4 (n : Nat) : String :=
  if n < 10 then "000" ++ toString n
  else if n < 100 then "00" ++ toString n
  else if n < 1000 then "0" ++ toString n
  else toString n

/-- `dt.strftime("%m-%d-%Y")`. -/
def strftimeMDY (dt : PDateTime) : String :=
  pad2 dt.month ++ "-" ++ pad2 dt.day ++ "-" ++ pad4 dt.year

/-! ### String renderings (`json.dumps`, `str`) -/

/-- A single-quote character, used by Python container `repr`. -/
def squote : String := String.singleton (Char.ofNat 39)

def jsonEscapeChar (c : Char) : String :=
  if c = Char.ofNat 92 then String.singleton (Char.ofNat 92) ++ String.singleton (Char.ofNat 92)
  else if c = Char.ofNat 34 then String.singleton (Char.ofNat 92) ++ String.singleton (Char.ofNat 34)
  else String.singleton c

def jsonEscape (s : String) : String :=
  String.join (s.data.map jsonEscapeChar)

def dquote : String := String.singleton (Char.ofNat 34)

mutual

/-- `json.dumps(v)` with the default separators; floats (`vRat`) never occur
in API input, so their rendering is never exercised. -/
def jsonDumps : Val → String
  | .vNone => "null"
  | .vBool b => if b then "true" else "false"
  | .vInt n => toString n
  | .vRat q => toString q
  | .vStr s => dquote ++ jsonEscape s ++ dquote
  | .vList xs => "[" ++ jsonDumpsList xs ++ "]"
  | .vDict d => "\x7b" ++ jsonDumpsDict d ++ "\x7d"

def jsonDumpsList : List Val → String
  | [] => ""
  | [v] => jsonDumps v
  | v :: vs => jsonDumps v ++ ", " ++ jsonDumpsList vs

def jsonDumpsDict : List (String × Val) → String
  | [] => ""
  | [(k, v)] => dquote ++ jsonEscape k ++ dquote ++ ": " ++ jsonDumps v
  | (k, v) :: rest =>
    dquote ++ jsonEscape k ++ dquote ++ ": " ++ jsonDumps v ++ ", " ++ jsonDumpsDict rest

end

mutual

/-- Python `str(v)`, as applied by the transcript f-string; containers use
`repr` for their elements. -/
def pyStr : Val → String
  | .vNone => "None"
  | .vBool b => if b then "True" else "False"
  | .vInt n => toString n
  | .vRat q => toString q
  | .vStr s => s
  | .vList xs => "[" ++ pyReprList xs ++ "]"
  | .vDict d => "\x7b" ++ pyReprDict d ++ "\x7d"

def pyRepr : Val → String
  | .vNone => "None"
  | .vBool b => if b then "True" else "False"
  | .vInt n => toString n
  | .vRat q => toString q
  | .vStr s => squote ++ s ++ squote
  | .vList xs => "[" ++ pyReprList xs ++ "]"
  | .vDict d => "\x7b" ++ pyReprDict d ++ "\x7d"

def pyReprList : List Val → String
  | [] => ""
  | [v] => pyRepr v
  | v :: vs => pyRepr v ++ ", " ++ pyReprList vs

def pyReprDict : List (String × Val) → String
  | [] => ""
  | [(k, v)] => squote ++ k ++ squote ++ ": " ++ pyRepr v
  | (k, v) :: rest => squote ++ k ++ squote ++ ": " ++ pyRepr v ++ ", " ++ pyReprDict rest

end

/-! ### Row fields (src/app.py lines 84-99) -/

/-- src/app.py lines 85-89: the date field. An empty/falsy value short
circuits to the sentinel inside the `try`. A truthy string takes the strict
parse and, failing that, the `dateutil` fallback; if the fallback also
fails the `parser.ParserError` escapes uncaught. A truthy non-string makes
`strptime` raise `TypeError`, which the bare `except` catches, and
`parser.parse` then raises `TypeError` uncaught. -/
def dateField (v : Val) : Except PyErr String :=
  if !truthy v then .ok ("N/A")
  else
    match v with
    | .vStr s =>
      match strptimeISO s with
      | some dt => .ok (strftimeMDY dt)
      | none =>
        match dateutil_parse s with
        | some dt => .ok (strftimeMDY dt)
        | none => .error .parserError
    | _ => .error .typeError

/-- One step of the label comprehension, `label.get("name", "")`: only a
dict has `.get`; anything else raises `AttributeError`. -/
def labelName (label : Val) : Except PyErr Val :=
  match label with
  | .vDict d => .ok (getD d ("name") (.vStr ""))
  | _ => .error .attributeError

/-- `", ".join` accepts only strings. -/
def joinArg : Val → Except PyErr String
  | .vStr s => .ok s
  | _ => .error .typeError

/-- src/app.py lines 91-92: `[label.get("name", "") for label in v]`
followed by `", ".join`. Iterating an empty string or empty dict yields no
elements; a non-empty one yields non-dict elements whose `.get` raises;
non-iterables raise `TypeError`. -/
def labelsField (v : Val) : Except PyErr String :=
  match v with
  | .vList ls => do
    let names ← exceptMapM labelName ls
    let strs ← exceptMapM joinArg names
    .ok (String.intercalate (", ") strs)
  | .vStr s => if s = "" then .ok ("") else .error .attributeError
  | .vDict d => if d.isEmpty then .ok ("") else .error .attributeError
  | _ => .error .typeError

/-- src/app.py lines 97-99: user-level assignee name, falling back on a
falsy result to the team-level name with default "Unassigned". -/
def assignedAgent (t : List (String × Val)) : Val :=
  let a := safe_get (.vDict t) [("current_user_asignee"), ("name")] (.vStr "")
  if !truthy a then
    safe_get (.vDict t) [("current_team_asignee"), ("name")] (.vStr ("Unassigned"))
  else a

/-! ### Reply classification (src/app.py lines 105-111 and 130-135) -/

/-- src/app.py lines 105-111 (transcript pass): truthy top-level `agent`
flag, else a present and truthy `replier` whose `agent` flag decides;
a truthy non-dict `replier` raises `AttributeError` at `.get`. -/
def classifyTranscript (reply : Val) : Except PyErr Bool :=
  match reply with
  | .vDict d =>
    if truthy (getD d ("agent") .vNone) then .ok true
    else if hasKey d ("replier") && truthy (getD d ("replier") .vNone) then
      match getD d ("replier") .vNone with
      | .vDict rd => .ok (truthy (getD rd ("agent") .vNone))
      | _ => .error .attributeError
    else .ok false
  | _ => .error .attributeError

/-- src/app.py lines 130-135 (metrics pass): textually the same
classification as the transcript pass, embedded separately so that the
consistency of the two passes is a provable statement rather than a
definitional collapse. -/
def classifyMetrics (reply : Val) : Except PyErr Bool :=
  match reply with
  | .vDict d =>
    if truthy (getD d ("agent") .vNone) then .ok true
    else if hasKey d ("replier") && truthy (getD d ("replier") .vNone) then
      match getD d ("replier") .vNone with
      | .vDict rd => .ok (truthy (getD rd ("agent") .vNone))
      | _ => .error .attributeError
    else .ok false
  | _ => .error .attributeError

/-! ### Chronological sort (src/app.py lines 104 and 124) -/

/-- The sort key `x.get("created_at", "")`, lowered to a `String`; non-dict
replies and non-string keys never reach the comparison in a run the sort
accepts (see `sortedReplies`). -/
def keyOf (r : Val) : String :=
  match r with
  | .vDict d =>
    match getD d ("created_at") (.vStr "") with
    | .vStr s => s
    | _ => ""
  | _ => ""

/-- Code-point lexicographic `<=` on character lists: exactly Python's
string comparison. -/
def charsLe : List Char → List Char → Bool
  | [], _ => true
  | _ :: _, [] => false
  | a :: as, b :: bs =>
    if a.toNat < b.toNat then true
    else if b.toNat < a.toNat then false
    else charsLe as bs

/-- Python string `<=`. -/
def strLe (s t : String) : Bool := charsLe s.data t.data

/-- The sort relation of `sorted(replies, key=...)`: ascending raw
timestamp string. -/
def keyLE (a b : Val) : Prop := strLe (keyOf a) (keyOf b) = true

instance (a b : Val) : Decidable (keyLE a b) :=
  inferInstanceAs (Decidable (strLe (keyOf a) (keyOf b) = true))

/-- A reply acceptable to the sort call: a dict whose `created_at` (default
the empty string) is a string, so that all key comparisons are string
comparisons. -/
def strKeyOK (r : Val) : Bool :=
  match r with
  | .vDict d =>
    match getD d ("created_at") (.vStr "") with
    | .vStr _ => true
    | _ => false
  | _ => false

/-- The output of Python `sorted` on acceptable input: the stable ascending
permutation, here computed by insertion sort (stable sorts agree). -/
def sortCore (rs : List Val) : List Val :=
  List.insertionSort keyLE rs

/-- src/app.py line 104/124, `sorted(replies, key=lambda x: x.get("created_at", ""))`.
A non-dict reply raises `AttributeError` in the key lambda; mixed-type keys
raise `TypeError` at comparison (modelled conservatively: any run with a
non-string key is an error). -/
def sortedReplies (rs : List Val) : Except PyErr (List Val) :=
  if rs.all strKeyOK then .ok (sortCore rs) else .error .typeError

/-! ### Transcript (src/app.py lines 102-115) -/

/-- One iteration of the transcript loop: classify, fetch the body through
`safe_get(reply, ["content", "text"], "")`, and render the f-string. -/
def transcriptLine (reply : Val) : Except PyErr String := do
  let isA ← classifyTranscript reply
  let txt := safe_get reply [("content"), ("text")] (.vStr "")
  .ok ((if isA then "Agent" else "Customer") ++ ": " ++ pyStr txt)

/-- The transcript column: lines joined by a newline. -/
def transcript (sorted : List Val) : Except PyErr String := do
  let lines ← exceptMapM transcriptLine sorted
  .ok (String.intercalate ("\n") lines)

/-! ### Metrics pass (src/app.py lines 117-143) -/

/-- The mutable state of the metrics loop: `first_agent_reply_time`,
`response_times` (hours, as exact rationals standing for Python floats)
and `previous_message_time`. -/
structure MetState where
  firstAgent : Option Int
  responseTimes : List ℚ
  prev : Option Int
deriving DecidableEq, Repr

/-- `reply.get("created_at", "")` inside the metrics loop. -/
def replyKeyVal (r : Val) : Except PyErr Val :=
  match r with
  | .vDict d => .ok (getD d ("created_at") (.vStr ""))
  | _ => .error .attributeError

/-- `parser.parse(s) if s else None` (used for both the ticket's
`created_at` and each reply's): a falsy value gives `None`; a truthy
string must parse (else `ParserError`); a truthy non-string raises
`TypeError` inside `dateutil`. -/
def parseTimeVal (v : Val) : Except PyErr (Option Int) :=
  if truthy v then
    match v with
    | .vStr s =>
      match dateutil_parse s with
      | some dt => .ok (some (toEpochSeconds dt))
      | none => .error .parserError
    | _ => .error .typeError
  else .ok none

/-- One iteration of the metrics loop (src/app.py lines 124-140). The
delta, the classification, the appends and the advance of
`previous_message_time` all live inside the
`if reply_created_at and previous_message_time:` guard. -/
def metricsStep (st : MetState) (reply : Val) : Except PyErr MetState := do
  let kv ← replyKeyVal reply
  let rt ← parseTimeVal kv
  match rt, st.prev with
  | some t, some p => do
    let diff : ℚ := ((t - p : Int) : ℚ) / 3600
    let isA ← classifyMetrics reply
    let st1 :=
      if isA then
        { st with
          responseTimes := st.responseTimes ++ [diff],
          firstAgent := if st.firstAgent.isNone then some t else st.firstAgent }
      else st
    .ok { st1 with prev := some t }
  | _, _ => .ok st

/-- The metrics loop over the chronologically sorted replies. -/
def metricsFold : MetState → List Val → Except PyErr MetState
  | st, [] => .ok st
  | st, r :: rs => do metricsFold (← metricsStep st r) rs

/-- src/app.py lines 117-143: parse the ticket's `created_at`, run the
metrics loop over the sorted replies, then derive
`(first_response_time, average_response_time)`, each `none` (Python
`None`) when its anchors are missing. -/
def computeMetrics (createdVal : Val) (replies : List Val) :
    Except PyErr (Option ℚ × Option ℚ) := do
  let created ← parseTimeVal createdVal
  let sorted ← sortedReplies replies
  let st ← metricsFold { firstAgent := none, responseTimes := [], prev := created } sorted
  let frt : Option ℚ :=
    match created, st.firstAgent with
    | some c, some fa => some (((fa - c : Int) : ℚ) / 3600)
    | _, _ => none
  let art : Option ℚ :=
    if st.responseTimes.isEmpty then none
    else some (st.responseTimes.sum / (st.responseTimes.length : ℚ))
  .ok (frt, art)

/-! ### Row assembly and CSV emission (src/app.py lines 74-158) -/

/-- Python `None`-or-float lowered to a cell value. -/
def optValQ : Option ℚ → Val
  | none => .vNone
  | some q => .vRat q

/-- The `fieldnames` list handed to `csv.DictWriter` (src/app.py lines
76-79): the fixed eight-column DerivedRow schema of the header. -/
def fieldnames : List String :=
  [("ticket_id"), ("date"), ("labels"), ("ticket_description"),
   ("assigned_agent_name"), ("first_response_time"), ("average_response_time"),
   ("replies")]

/-- src/app.py lines 84-155: build one ticket's `row_data` dict (keys in
program order, including the trailing `raw` entry of line 154). Any
exception raised along the way propagates. -/
def processTicket (ticket : Val) : Except PyErr (List (String × Val)) :=
  match ticket with
  | .vDict t => do
    let ticket_id := getD t ("id") (.vStr ("N/A"))
    let date ← dateField (getD t ("last_activity_at") (.vStr ""))
    let labels_str ← labelsField (getD t ("labels") (.vList []))
    let ticket_description := safe_get (.vDict t) [("content"), ("text")] (.vStr ("No description"))
    let assigned := assignedAgent t
    let replyList ←
      match getD t ("replies") (.vList []) with
      | .vList rs => Except.ok rs
      | _ => Except.error PyErr.typeError
    let sorted ← sortedReplies replyList
    let combined ← transcript sorted
    let m ← computeMetrics (getD t ("created_at") (.vStr "")) replyList
    Except.ok
      [(("ticket_id"), ticket_id),
       (("date"), .vStr date),
       (("labels"), .vStr labels_str),
       (("ticket_description"), ticket_description),
       (("assigned_agent_name"), assigned),
       (("first_response_time"), optValQ m.1),
       (("average_response_time"), optValQ m.2),
       (("replies"), .vStr combined),
       (("raw"), .vStr ((jsonDumps ticket).take 1000))]
  | _ => .error .attributeError

/-- `csv.DictWriter.writerow` with the default `extrasaction="raise"`
(src/app.py lines 80 and 156): a row dict carrying any key outside
`fieldnames` raises `ValueError`; otherwise the row is emitted in header
order (missing fields take the `restval` empty string). -/
def writeRow (row : List (String × Val)) : Except PyErr (List Val) :=
  if row.all (fun p => fieldnames.contains p.1) then
    .ok (fieldnames.map (fun f => (lookup row f).getD (.vStr "")))
  else .error .valueError

/-- src/app.py lines 74-158, `create_csv`: the per-ticket loop. The first
exception raised while building or emitting any row aborts the whole
batch, which the `Except` short circuit mirrors. The emitted data rows
(header order) are returned; the textual CSV quoting layer is not part of
any claim and is not modelled. -/
def create_csv (tickets : List Val) : Except PyErr (List (List Val)) :=
  exceptMapM (fun t => do writeRow (← processTicket t)) tickets

/-! ### Claim-side (spec-language) characterizations -/

/-- The reply's `created_at` value, when it is a string (absent defaults to
the empty string, as in the sort key and the metrics loop). -/
def replyTimeStr (r : Val) : Option String :=
  match r with
  | .vDict d =>
    match getD d ("created_at") (.vStr "") with
    | .vStr s => some s
    | _ => none
  | _ => none

/-- The reply's instant, when its `created_at` is a strict ISO-8601-UTC
string. -/
def replyInstant (r : Val) : Option Int :=
  (replyTimeStr r).bind (fun s => (strptimeISO s).map toEpochSeconds)

/-- The reply's role, when classification does not raise. -/
def replyRole (r : Val) : Option Bool :=
  match classifyTranscript r with
  | .ok b => some b
  | .error _ => none

/-- Instant and agent flag of a well-formed reply. -/
def extractTR (r : Val) : Option (Int × Bool) := do
  let t ← replyInstant r
  let b ← replyRole r
  pure (t, b)

/-- A reply is well formed for the metrics claims when it is a dict with a
strict ISO-8601-UTC `created_at` and a classifiable role signal. -/
def wfReply (r : Val) : Bool :=
  (extractTR r).isSome

/-- Instants and roles of a reply list (well-formed replies only). -/
def extractList (l : List Val) : List (Int × Bool) :=
  l.filterMap extractTR

/-- The spec's agent-reply interval list: walking the (chronologically
ordered) messages from `start` (the ticket creation instant), each
agent-authored message contributes the hours elapsed since the previous
message of either role. -/
def specIntervals (start : Int) : List (Int × Bool) → List ℚ
  | [] => []
  | (t, b) :: rest =>
    (if b then [(((t - start : Int) : ℚ) / 3600)] else []) ++ specIntervals t rest

/-- The instant of the first agent-authored message, if any. -/
def specFirstAgentTime : List (Int × Bool) → Option Int
  | [] => none
  | (t, b) :: rest => if b then some t else specFirstAgentTime rest

/-- The instant of the last message, or `p` when there is none. -/
def lastTime (p : Int) : List (Int × Bool) → Int
  | [] => p
  | (t, _) :: rest => lastTime t rest

/-- `first_agent_reply_time` combination: keep the earlier anchor. -/
def mergeFA (f g : Option Int) : Option Int :=
  if f.isNone then g else f

/-- Ascending instants, the sense in which the sorted order is
chronological. -/
def nondecreasing : List Int → Bool
  | [] => true
  | [_] => true
  | a :: b :: r => decide (a ≤ b) && nondecreasing (b :: r)

/-- The claim's `average_response_time`: the unweighted arithmetic mean of
the agent-reply intervals, or `None` exactly when the list is empty. -/
def avgSpec (c : Int) (lst : List (Int × Bool)) : Option ℚ :=
  let L := specIntervals c lst
  if L = [] then none else some (L.sum / (L.length : ℚ))

/-- The ticket-creation anchor of the claims: present exactly when the
value is a truthy strict ISO-8601-UTC string. -/
def specCreatedOpt (v : Val) : Option Int :=
  if truthy v then
    match v with
    | .vStr s => (strptimeISO s).map toEpochSeconds
    | _ => none
  else none

/-- Well-formedness of the ticket's `created_at` value for the metrics
claims: either falsy (no anchor) or a strict ISO-8601-UTC string. -/
def createdOK (v : Val) : Bool :=
  if truthy v then
    match v with
    | .vStr s => (strptimeISO s).isSome
    | _ => false
  else true

/-- The claim's `first_response_time`: hours from creation to the first
agent reply, defined exactly when both anchors exist. -/
def frtSpec (c : Option Int) (lst : List (Int × Bool)) : Option ℚ :=
  match c, specFirstAgentTime lst with
  | some c0, some fa => some (((fa - c0 : Int) : ℚ) / 3600)
  | _, _ => none

/-- The resolution order exactly as the claim states it: agent if the
top-level `agent` flag is set, else agent if the nested `replier` record's
`agent` flag is set, else customer. -/
def classifySpec (r : Val) : Bool :=
  match r with
  | .vDict d =>
    if truthy (getD d ("agent") .vNone) then true
    else
      match lookup d ("replier") with
      | some (.vDict rd) => truthy (getD rd ("agent") .vNone)
      | _ => false
  | _ => false

/-- Reply shapes on which classification cannot raise: a dict whose
`replier` is absent, falsy, or itself a dict. -/
def replyShapeOK (r : Val) : Bool :=
  match r with
  | .vDict d =>
    match lookup d ("replier") with
    | none => true
    | some (.vDict _) => true
    | some v => !truthy v
  | _ => false

/-- A label entry the code accepts: a dict whose `name` (defaulting to the
empty string) is a string. -/
def labelOK (l : Val) : Bool :=
  match l with
  | .vDict d =>
    match getD d ("name") (.vStr "") with
    | .vStr _ => true
    | _ => false
  | _ => false

/-- The display string of an accepted label entry. -/
def labelDisplay (l : Val) : String :=
  match l with
  | .vDict d =>
    match getD d ("name") (.vStr "") with
    | .vStr s => s
    | _ => ""
  | _ => ""

/-- The plain nested-path lookup the claim about `safe_get` compares
against: `none` the moment a step is missing or goes through a non-dict. -/
def lookupPath : Val → List String → Option Val
  | v, [] => some v
  | .vDict d, k :: ks =>
    match lookup d k with
    | some v => lookupPath v ks
    | none => none
  | _, _ :: _ => none

/-- The state transformation the metrics loop actually applies to a
well-formed reply with instant `t` and role `b` (the amended form of the
`previous_message_time` claim): nothing at all happens unless the previous
message time is available. -/
def c9step (st : MetState) (t : Int) (b : Bool) : MetState :=
  match st.prev with
  | none => st
  | some p =>
    { firstAgent := if b && st.firstAgent.isNone then some t else st.firstAgent,
      responseTimes := st.responseTimes ++ (if b then [(((t - p : Int) : ℚ) / 3600)] else []),
      prev := some t }

/-! ## Theorems -/

theorem charsLe_refl (l : List Char) : charsLe l l = true := by
  induction l with
  | nil => rfl
  | cons a as ih => simp [charsLe, ih]

theorem strLe_refl (s : String) : strLe s s = true := charsLe_refl s.data

theorem charsLe_total : ∀ x y : List Char, charsLe x y = true ∨ charsLe y x = true
  | [], _ => Or.inl rfl
  | _ :: _, [] => Or.inr rfl
  | a :: as, b :: bs => by
    by_cases hab : a.toNat < b.toNat
    · exact Or.inl (by simp [charsLe, hab])
    · by_cases hba : b.toNat < a.toNat
      · exact Or.inr (by simp [charsLe, hba])
      · cases charsLe_total as bs with
        | inl h => exact Or.inl (by simp [charsLe, hab, hba, h])
        | inr h => exact Or.inr (by simp [charsLe, hab, hba, h])

theorem charsLe_trans : ∀ x y z : List Char,
    charsLe x y = true → charsLe y z = true → charsLe x z = true
  | [], _, _, _, _ => rfl
  | _ :: _, [], _, h1, _ => by simp [charsLe] at h1
  | _ :: _, _ :: _, [], _, h2 => by simp [charsLe] at h2
  | a :: as, b :: bs, c :: cs, h1, h2 => by
    have key1 : a.toNat < b.toNat ∨ (a.toNat = b.toNat ∧ charsLe as bs = true) := by
      by_cases hab : a.toNat < b.toNat
      · exact Or.inl hab
      · by_cases hba : b.toNat < a.toNat
        · simp [charsLe, hab, hba] at h1
        · exact Or.inr ⟨by omega, by simpa [charsLe, hab, hba] using h1⟩
    have key2 : b.toNat < c.toNat ∨ (b.toNat = c.toNat ∧ charsLe bs cs = true) := by
      by_cases hbc : b.toNat < c.toNat
      · exact Or.inl hbc
      · by_cases hcb : c.toNat < b.toNat
        · simp [charsLe, hbc, hcb] at h2
        · exact Or.inr ⟨by omega, by simpa [charsLe, hbc, hcb] using h2⟩
    rcases key1 with hab | ⟨hab, hrec1⟩ <;> rcases key2 with hbc | ⟨hbc, hrec2⟩
    · simp [charsLe, show a.toNat < c.toNat by omega]
    · simp [charsLe, show a.toNat < c.toNat by omega]
    · simp [charsLe, show a.toNat < c.toNat by omega]
    · have hac : a.toNat = c.toNat := by omega
      simp [charsLe, show ¬a.toNat < c.toNat by omega, show ¬c.toNat < a.toNat by omega,
        charsLe_trans as bs cs hrec1 hrec2]

instance : IsTotal Val keyLE :=
  ⟨fun a b => charsLe_total (keyOf a).data (keyOf b).data⟩

instance : IsTrans Val keyLE :=
  ⟨fun _ _ _ h1 h2 => charsLe_trans _ _ _ h1 h2⟩

theorem ok_bind (a : α) (f : α → Except PyErr β) :
    (Except.ok a >>= f) = f a := rfl

theorem error_bind (e : PyErr) (f : α → Except PyErr β) :
    (Except.error e >>= f : Except PyErr β) = Except.error e := rfl

/-- Walking any number of keys into the empty dict always lands on the
default. -/
theorem safe_get_emptyDict (ks : List String) (dflt : Val) :
    safe_get (Val.vDict []) ks dflt = dflt := by
  induction ks with
  | nil => rfl
  | cons k ks ih => simpa [safe_get, getD, lookup] using ih

/-- The characterization of `safe_get` by the plain path lookup. -/
theorem safe_get_eq_lookupPath (ks : List String) (v : Val) (dflt : Val) :
    safe_get v ks dflt =
      (match lookupPath v ks with
       | none => dflt
       | some w => if isEmptyDict w then dflt else w) := by
  induction ks generalizing v with
  | nil => cases v <;> rfl
  | cons k ks ih =>
    cases v with
    | vDict d =>
      cases h : lookup d k with
      | none => simp [safe_get, lookupPath, getD, h, safe_get_emptyDict]
      | some w => simp [safe_get, lookupPath, getD, h, ih]
    | vNone => rfl
    | vBool b => rfl
    | vInt n => rfl
    | vRat q => rfl
    | vStr s => rfl
    | vList xs => rfl

/-- C10: for every mapping and key path, `safe_get` returns the
caller-supplied default not only when a step of the path is missing or
goes through a non-mapping value (`lookupPath` is `none`), but also when
the value stored at the end of the path equals the empty mapping; in every
other case it returns the stored value, and being a total function it
never raises. -/
theorem c10_safe_get_default (d : List (String × Val)) (ks : List String) (dflt : Val) :
    safe_get (Val.vDict d) ks dflt =
      (match lookupPath (Val.vDict d) ks with
       | none => dflt
       | some w => if isEmptyDict w then dflt else w) :=
  safe_get_eq_lookupPath ks (Val.vDict d) dflt

/-- C5: the transcript pass and the metrics pass classify every reply
identically (so no reply is agent in one pass and customer in the other),
and on every reply whose `replier` field is absent, falsy or a record the
classification follows the claimed resolution order: top-level agent flag,
else the nested replier record's agent flag, else customer. -/
theorem c5_classification (r : Val) :
    classifyTranscript r = classifyMetrics r ∧
    (replyShapeOK r = true → classifyTranscript r = Except.ok (classifySpec r)) := by
  refine ⟨rfl, ?_⟩
  intro h
  cases r with
  | vDict d =>
    cases ha : truthy (getD d ("agent") Val.vNone) with
    | true => simp [classifyTranscript, classifySpec, ha]
    | false =>
      cases hr : lookup d ("replier") with
      | none =>
        simp [classifyTranscript, classifySpec, ha, hasKey, hr]
      | some w =>
        have hget : getD d ("replier") Val.vNone = w := by simp [getD, hr]
        have hhas : hasKey d ("replier") = true := by simp [hasKey, hr]
        cases w with
        | vDict rd =>
          cases rd with
          | nil =>
            have ht : truthy (Val.vDict []) = false := rfl
            have hag : truthy (getD ([] : List (String × Val)) ("agent") Val.vNone) = false := rfl
            simp [classifyTranscript, classifySpec, ha, hhas, hget, hr, ht, hag]
          | cons p rest =>
            have ht : truthy (Val.vDict (p :: rest)) = true := rfl
            simp [classifyTranscript, classifySpec, ha, hhas, hget, hr, ht]
        | vNone =>
          have hw : truthy Val.vNone = false := rfl
          simp [classifyTranscript, classifySpec, ha, hhas, hget, hr, hw]
        | vBool b =>
          simp only [replyShapeOK, hr] at h
          have hw : truthy (Val.vBool b) = false := by simpa using h
          simp [classifyTranscript, classifySpec, ha, hhas, hget, hr, hw]
        | vInt n =>
          simp only [replyShapeOK, hr] at h
          have hw : truthy (Val.vInt n) = false := by simpa using h
          simp [classifyTranscript, classifySpec, ha, hhas, hget, hr, hw]
        | vRat q =>
          simp only [replyShapeOK, hr] at h
          have hw : truthy (Val.vRat q) = false := by simpa using h
          simp [classifyTranscript, classifySpec, ha, hhas, hget, hr, hw]
        | vStr s =>
          simp only [replyShapeOK, hr] at h
          have hw : truthy (Val.vStr s) = false := by simpa using h
          simp [classifyTranscript, classifySpec, ha, hhas, hget, hr, hw]
        | vList xs =>
          simp only [replyShapeOK, hr] at h
          have hw : truthy (Val.vList xs) = false := by simpa using h
          simp [classifyTranscript, classifySpec, ha, hhas, hget, hr, hw]
  | vNone => simp [replyShapeOK] at h
  | vBool b => simp [replyShapeOK] at h
  | vInt n => simp [replyShapeOK] at h
  | vRat q => simp [replyShapeOK] at h
  | vStr s => simp [replyShapeOK] at h
  | vList xs => simp [replyShapeOK] at h

/-- Witness for C5: an agent reply flagged only through the nested
replier record is classified agent, identically in both passes. -/
theorem c5_classification_witness :
    classifyTranscript (Val.vDict [(("replier"), Val.vDict [(("agent"), Val.vBool true)])]) =
      classifyMetrics (Val.vDict [(("replier"), Val.vDict [(("agent"), Val.vBool true)])]) ∧
    classifyTranscript (Val.vDict [(("replier"), Val.vDict [(("agent"), Val.vBool true)])]) =
      Except.ok (classifySpec (Val.vDict [(("replier"), Val.vDict [(("agent"), Val.vBool true)])])) :=
  ⟨(c5_classification (Val.vDict [(("replier"), Val.vDict [(("agent"), Val.vBool true)])])).1,
   (c5_classification (Val.vDict [(("replier"), Val.vDict [(("agent"), Val.vBool true)])])).2 rfl⟩

/-- C8 counterexample: a bare-string label entry does not resolve to its
display string — `label.get` raises `AttributeError`, aborting the row. -/
theorem c8_counterexample :
    labelsField (Val.vList [Val.vStr ("bug")]) = Except.error PyErr.attributeError := rfl

theorem exceptMapM_labelName (ls : List Val) (h : ls.all labelOK = true) :
    exceptMapM labelName ls = Except.ok (ls.map (fun l => Val.vStr (labelDisplay l))) := by
  induction ls with
  | nil => rfl
  | cons x xs ih =>
    simp only [List.all_cons, Bool.and_eq_true] at h
    obtain ⟨hx, hxs⟩ := h
    have hn : labelName x = Except.ok (Val.vStr (labelDisplay x)) := by
      cases x with
      | vDict d =>
        cases hg : getD d ("name") (Val.vStr "") with
        | vStr s => simp [labelName, labelDisplay, hg]
        | vNone => simp [labelOK, hg] at hx
        | vBool b => simp [labelOK, hg] at hx
        | vInt n => simp [labelOK, hg] at hx
        | vRat q => simp [labelOK, hg] at hx
        | vList xs => simp [labelOK, hg] at hx
        | vDict dd => simp [labelOK, hg] at hx
      | vNone => simp [labelOK] at hx
      | vBool b => simp [labelOK] at hx
      | vInt n => simp [labelOK] at hx
      | vRat q => simp [labelOK] at hx
      | vStr s => simp [labelOK] at hx
      | vList xs => simp [labelOK] at hx
    simp [exceptMapM, hn, ih hxs, ok_bind]

theorem exceptMapM_joinArg (ss : List String) :
    exceptMapM joinArg (ss.map Val.vStr) = Except.ok ss := by
  induction ss with
  | nil => rfl
  | cons x xs ih => simp [exceptMapM, joinArg, ih, ok_bind]

/-- C8 amended: label extraction requires every entry to be a mapping; it
resolves each mapping to its `name` field (defaulting to the empty
string), joins the results with a comma-space, and maps the empty label
list to the empty string, never to null. A bare-string entry instead
raises `AttributeError` (see `c8_counterexample`). -/
theorem c8_labels_join (ls : List Val) (h : ls.all labelOK = true) :
    labelsField (Val.vList ls) =
      Except.ok (String.intercalate (", ") (ls.map labelDisplay)) := by
  have h1 := exceptMapM_labelName ls h
  have h2 : exceptMapM joinArg (List.map (fun l => Val.vStr (labelDisplay l)) ls) =
      Except.ok (ls.map labelDisplay) := by
    have h3 := exceptMapM_joinArg (ls.map labelDisplay)
    rw [List.map_map] at h3
    exact h3
  simp [labelsField, h1, h2, ok_bind]

/-- Witness for C8: the claim's own example list resolves to a
comma-space join, and the empty list resolves to the empty string. -/
theorem c8_labels_join_witness :
    ([Val.vDict [(("name"), Val.vStr ("bug"))],
      Val.vDict [(("name"), Val.vStr ("urgent"))]].all labelOK = true) ∧
    labelsField (Val.vList [Val.vDict [(("name"), Val.vStr ("bug"))],
      Val.vDict [(("name"), Val.vStr ("urgent"))]]) = Except.ok ("bug, urgent") ∧
    labelsField (Val.vList []) = Except.ok ("") :=
  ⟨rfl,
   (c8_labels_join [Val.vDict [(("name"), Val.vStr ("bug"))],
      Val.vDict [(("name"), Val.vStr ("urgent"))]] rfl).trans rfl,
   rfl⟩

/-- C1: emitting a row never succeeds, let alone always — the `row_data`
dict carries the extra `raw` key outside `fieldnames`, so `DictWriter`
raises `ValueError` even for a fully well-formed (here: empty) ticket
mapping, aborting the batch. -/
theorem c1_emission_raises :
    create_csv [Val.vDict []] = Except.error PyErr.valueError := rfl

/-- C2: the constructed row does not match the header's column set — it
carries the nine keys including `raw`, while the header has eight
fieldnames without `raw`, and emission therefore raises instead of
producing a row. -/
theorem c2_schema_mismatch :
    (processTicket (Val.vDict [(("id"), Val.vInt 42)])).map (fun row => row.map Prod.fst) =
      Except.ok [("ticket_id"), ("date"), ("labels"), ("ticket_description"),
        ("assigned_agent_name"), ("first_response_time"), ("average_response_time"),
        ("replies"), ("raw")] ∧
    fieldnames.contains ("raw") = false ∧
    create_csv [Val.vDict [(("id"), Val.vInt 42)]] = Except.error PyErr.valueError :=
  ⟨rfl, rfl, rfl⟩

/-- C7: the absent date falls back to the sentinel, the strict format is
rendered MM-DD-YYYY, and a strict-format failure does attempt the
tolerant parse — but when the tolerant parse also fails the
`ParserError` escapes and aborts row construction instead of falling back
to the sentinel. -/
theorem c7_date_fallback_raises :
    dateField (Val.vStr ("")) = Except.ok ("N/A") ∧
    dateField (Val.vStr ("2023-01-05T10:00:00Z")) = Except.ok ("01-05-2023") ∧
    dateField (Val.vStr ("2023-01-05T10:00:00")) = Except.ok ("01-05-2023") ∧
    create_csv [Val.vDict [(("last_activity_at"), Val.vStr ("garbage"))]] =
      Except.error PyErr.parserError :=
  ⟨rfl, rfl, rfl, rfl⟩

/-- C9 counterexample: a reply whose timestamp is available (`wfReply`) is
processed from a state whose `previous_message_time` is unavailable (no
creation anchor), and `previous_message_time` is not advanced to the
reply's timestamp — the loop state is returned unchanged, `prev = none`. -/
theorem c9_counterexample :
    wfReply (Val.vDict [(("created_at"), Val.vStr ("2023-01-01T11:00:00Z"))]) = true ∧
    metricsFold { firstAgent := none, responseTimes := [], prev := none }
        [Val.vDict [(("created_at"), Val.vStr ("2023-01-01T11:00:00Z"))]] =
      Except.ok { firstAgent := none, responseTimes := [], prev := none } :=
  ⟨rfl, rfl⟩

/-- Inserting an element into a list moves it past strictly smaller keys
only, so the key-`k` sublist gains the element at the front exactly when
its own key is `k`, and is untouched otherwise. -/
theorem filter_orderedInsert (k : String) (x : Val) (l : List Val) :
    (List.orderedInsert keyLE x l).filter (fun r => keyOf r == k) =
      (if keyOf x == k then [x] else []) ++ l.filter (fun r => keyOf r == k) := by
  induction l with
  | nil =>
    cases h : keyOf x == k <;> simp [List.orderedInsert, List.filter_cons, h]
  | cons y t ih =>
    by_cases hle : keyLE x y
    · rw [List.orderedInsert_of_le _ _ hle]
      cases h : keyOf x == k <;> simp [List.filter_cons, h]
    · have hstep : List.orderedInsert keyLE x (y :: t) = y :: List.orderedInsert keyLE x t := by
        simp [List.orderedInsert, hle]
      rw [hstep]
      cases h : keyOf x == k with
      | false => simp [List.filter_cons, ih, h]
      | true =>
        have hxk : keyOf x = k := by simpa using h
        have hyk : keyOf y ≠ k := by
          intro he
          apply hle
          show strLe (keyOf x) (keyOf y) = true
          rw [hxk, he]
          exact strLe_refl k
        have hy : (keyOf y == k) = false := by simpa using hyk
        simp [List.filter_cons, ih, h, hy]

/-- Stability of the chronological sort: for every key value, the replies
carrying that key appear in the sorted output in their input order. -/
theorem filter_sortCore (k : String) (l : List Val) :
    (sortCore l).filter (fun r => keyOf r == k) = l.filter (fun r => keyOf r == k) := by
  induction l with
  | nil => rfl
  | cons x t ih =>
    rw [show sortCore (x :: t) = List.orderedInsert keyLE x (sortCore t) from rfl,
      filter_orderedInsert, ih]
    cases h : keyOf x == k <;> simp [List.filter_cons, h]

/-- C6: on every reply list whose sort keys are all strings, the sort
succeeds and returns the stable ascending rearrangement: the output is
sorted by the raw `created_at` string key (missing timestamps carry the
empty-string key, which is the least string, hence sort first), it is a
permutation of the input, and for every key value the replies sharing
that key — in particular replies sharing a missing timestamp — retain
their relative input order. -/
theorem c6_chronological_sort (rs : List Val) (h : rs.all strKeyOK = true) :
    sortedReplies rs = Except.ok (sortCore rs) ∧
    List.Sorted keyLE (sortCore rs) ∧
    List.Perm (sortCore rs) rs ∧
    ∀ k : String, (sortCore rs).filter (fun r => keyOf r == k) =
      rs.filter (fun r => keyOf r == k) :=
  ⟨by simp [sortedReplies, h],
   List.sorted_insertionSort keyLE rs,
   List.perm_insertionSort keyLE rs,
   fun k => filter_sortCore k rs⟩

/-- Witness for C6: timestamps in input order T3, (missing), (missing),
T1, T2 sort to (missing), (missing), T1, T2, T3, the two
missing-timestamp replies keeping their relative order. -/
theorem c6_chronological_sort_witness :
    ([Val.vDict [(("created_at"), Val.vStr ("T3")), (("id"), Val.vInt 3)],
      Val.vDict [(("id"), Val.vInt 4)],
      Val.vDict [(("id"), Val.vInt 5)],
      Val.vDict [(("created_at"), Val.vStr ("T1")), (("id"), Val.vInt 1)],
      Val.vDict [(("created_at"), Val.vStr ("T2")), (("id"), Val.vInt 2)]].all strKeyOK = true) ∧
    sortedReplies
        [Val.vDict [(("created_at"), Val.vStr ("T3")), (("id"), Val.vInt 3)],
         Val.vDict [(("id"), Val.vInt 4)],
         Val.vDict [(("id"), Val.vInt 5)],
         Val.vDict [(("created_at"), Val.vStr ("T1")), (("id"), Val.vInt 1)],
         Val.vDict [(("created_at"), Val.vStr ("T2")), (("id"), Val.vInt 2)]] =
      Except.ok (sortCore
        [Val.vDict [(("created_at"), Val.vStr ("T3")), (("id"), Val.vInt 3)],
         Val.vDict [(("id"), Val.vInt 4)],
         Val.vDict [(("id"), Val.vInt 5)],
         Val.vDict [(("created_at"), Val.vStr ("T1")), (("id"), Val.vInt 1)],
         Val.vDict [(("created_at"), Val.vStr ("T2")), (("id"), Val.vInt 2)]]) ∧
    sortCore
        [Val.vDict [(("created_at"), Val.vStr ("T3")), (("id"), Val.vInt 3)],
         Val.vDict [(("id"), Val.vInt 4)],
         Val.vDict [(("id"), Val.vInt 5)],
         Val.vDict [(("created_at"), Val.vStr ("T1")), (("id"), Val.vInt 1)],
         Val.vDict [(("created_at"), Val.vStr ("T2")), (("id"), Val.vInt 2)]] =
      [Val.vDict [(("id"), Val.vInt 4)],
       Val.vDict [(("id"), Val.vInt 5)],
       Val.vDict [(("created_at"), Val.vStr ("T1")), (("id"), Val.vInt 1)],
       Val.vDict [(("created_at"), Val.vStr ("T2")), (("id"), Val.vInt 2)],
       Val.vDict [(("created_at"), Val.vStr ("T3")), (("id"), Val.vInt 3)]] :=
  ⟨rfl,
   (c6_chronological_sort
     [Val.vDict [(("created_at"), Val.vStr ("T3")), (("id"), Val.vInt 3)],
      Val.vDict [(("id"), Val.vInt 4)],
      Val.vDict [(("id"), Val.vInt 5)],
      Val.vDict [(("created_at"), Val.vStr ("T1")), (("id"), Val.vInt 1)],
      Val.vDict [(("created_at"), Val.vStr ("T2")), (("id"), Val.vInt 2)]] rfl).1,
   rfl⟩

theorem strptimeISO_ne_empty (s : String) (dt : PDateTime) (h : strptimeISO s = some dt) :
    s ≠ "" := by
  intro he
  subst he
  have hz : strptimeISO ("") = none := rfl
  rw [hz] at h
  exact Option.noConfusion h

theorem replyTimeStr_key (r : Val) (s : String) (h : replyTimeStr r = some s) :
    replyKeyVal r = Except.ok (Val.vStr s) := by
  cases r with
  | vDict d =>
    simp only [replyTimeStr] at h
    cases hg : getD d ("created_at") (Val.vStr "") with
    | vStr s2 =>
      rw [hg] at h
      simp only [Option.some.injEq] at h
      subst h
      simp [replyKeyVal, hg]
    | vNone => rw [hg] at h; simp at h
    | vBool b => rw [hg] at h; simp at h
    | vInt n => rw [hg] at h; simp at h
    | vRat q => rw [hg] at h; simp at h
    | vList xs => rw [hg] at h; simp at h
    | vDict dd => rw [hg] at h; simp at h
  | vNone => simp [replyTimeStr] at h
  | vBool b => simp [replyTimeStr] at h
  | vInt n => simp [replyTimeStr] at h
  | vRat q => simp [replyTimeStr] at h
  | vStr s2 => simp [replyTimeStr] at h
  | vList xs => simp [replyTimeStr] at h

theorem parseTime_of_strptime (s : String) (dt : PDateTime) (h : strptimeISO s = some dt) :
    parseTimeVal (Val.vStr s) = Except.ok (some (toEpochSeconds dt)) := by
  have hne : s ≠ "" := strptimeISO_ne_empty s dt h
  simp [parseTimeVal, truthy, hne, dateutil_parse, h]

theorem classifyMetrics_of_role (r : Val) (b : Bool) (h : replyRole r = some b) :
    classifyMetrics r = Except.ok b := by
  have he : classifyMetrics r = classifyTranscript r := rfl
  rw [he]
  simp only [replyRole] at h
  cases hc : classifyTranscript r with
  | ok b2 =>
    rw [hc] at h
    simp only [Option.some.injEq] at h
    rw [h]
  | error e =>
    rw [hc] at h
    exact Option.noConfusion h

theorem extractTR_eq (r : Val) (t : Int) (b : Bool) (h : extractTR r = some (t, b)) :
    replyInstant r = some t ∧ replyRole r = some b := by
  simp only [extractTR] at h
  cases hti : replyInstant r with
  | none => rw [hti] at h; simp at h
  | some t2 =>
    rw [hti] at h
    cases hrb : replyRole r with
    | none => rw [hrb] at h; simp at h
    | some b2 =>
      rw [hrb] at h
      have hp : t2 = t ∧ b2 = b := by simpa using h
      rw [hp.1, hp.2]
      exact ⟨rfl, rfl⟩

theorem replyInstant_eq (r : Val) (t : Int) (h : replyInstant r = some t) :
    ∃ s dt, replyTimeStr r = some s ∧ strptimeISO s = some dt ∧ t = toEpochSeconds dt := by
  simp only [replyInstant] at h
  cases hts : replyTimeStr r with
  | none => rw [hts] at h; simp at h
  | some s =>
    rw [hts] at h
    simp only [Option.some_bind] at h
    cases hdt : strptimeISO s with
    | none => rw [hdt] at h; simp at h
    | some dt =>
      rw [hdt] at h
      have hv : toEpochSeconds dt = t := by simpa using h
      exact ⟨s, dt, rfl, hdt, hv.symm⟩

/-- The metrics loop applies exactly `c9step` to every well-formed reply:
on a reply with available timestamp `t` and role `b`, the delta append,
first-agent record and `previous_message_time` advance all happen when the
previous time is available, and nothing happens when it is not. -/
theorem metricsStep_spec (st : MetState) (r : Val) (t : Int) (b : Bool)
    (h : extractTR r = some (t, b)) :
    metricsStep st r = Except.ok (c9step st t b) := by
  obtain ⟨hti, hrb⟩ := extractTR_eq r t b h
  obtain ⟨s, dt, hts, hdt, htv⟩ := replyInstant_eq r t hti
  have hkey := replyTimeStr_key r s hts
  have hparse := parseTime_of_strptime s dt hdt
  have hcls := classifyMetrics_of_role r b hrb
  subst htv
  simp only [metricsStep, hkey, ok_bind, hparse]
  cases hp : st.prev with
  | none => simp [c9step, hp]
  | some p =>
    simp only [hp, hcls, ok_bind]
    cases b with
    | true => simp [c9step, hp]
    | false => simp [c9step, hp]

theorem mergeFA_none_right (f : Option Int) : mergeFA f none = f := by
  cases f <;> rfl

theorem mergeFA_step (F : Option Int) (t : Int) (b : Bool) (G : Option Int) :
    mergeFA (if b && F.isNone then some t else F) G =
      mergeFA F (if b then some t else G) := by
  cases b <;> cases F <;> simp [mergeFA]

/-- Running the metrics loop from an available previous time over
well-formed replies yields exactly the spec-side quantities: the first
agent instant, the accumulated agent intervals, and the last message
instant as the new previous time. -/
theorem metricsFold_wf : ∀ l : List Val, l.all wfReply = true →
    ∀ (F : Option Int) (R : List ℚ) (p : Int),
    metricsFold ⟨F, R, some p⟩ l =
      Except.ok ⟨mergeFA F (specFirstAgentTime (extractList l)),
        R ++ specIntervals p (extractList l),
        some (lastTime p (extractList l))⟩
  | [], _, F, R, p => by
    simp [metricsFold, extractList, specIntervals, specFirstAgentTime, lastTime,
      mergeFA_none_right]
  | r :: rs, h, F, R, p => by
    simp only [List.all_cons, Bool.and_eq_true] at h
    obtain ⟨hr, hrs⟩ := h
    obtain ⟨⟨t, b⟩, htb⟩ := Option.isSome_iff_exists.mp hr
    simp only [metricsFold, metricsStep_spec _ r t b htb, ok_bind]
    have hstep : c9step ⟨F, R, some p⟩ t b =
        ⟨if b && F.isNone then some t else F,
         R ++ (if b then [(((t - p : Int) : ℚ) / 3600)] else []), some t⟩ := rfl
    rw [hstep, metricsFold_wf rs hrs _ _ t]
    simp only [extractList, List.filterMap_cons, htb, specIntervals, specFirstAgentTime,
      lastTime, mergeFA_step, List.append_assoc]

/-- Without a previous-time anchor the metrics loop is inert on
well-formed replies: the state — `previous_message_time` included — never
changes. -/
theorem metricsFold_noanchor : ∀ l : List Val, l.all wfReply = true →
    ∀ (F : Option Int) (R : List ℚ),
    metricsFold ⟨F, R, none⟩ l = Except.ok ⟨F, R, none⟩
  | [], _, _, _ => rfl
  | r :: rs, h, F, R => by
    simp only [List.all_cons, Bool.and_eq_true] at h
    obtain ⟨hr, hrs⟩ := h
    obtain ⟨⟨t, b⟩, htb⟩ := Option.isSome_iff_exists.mp hr
    simp only [metricsFold, metricsStep_spec _ r t b htb, ok_bind]
    have hstep : c9step ⟨F, R, none⟩ t b = ⟨F, R, none⟩ := rfl
    rw [hstep, metricsFold_noanchor rs hrs F R]

theorem sortCore_all (p : Val → Bool) (rs : List Val) (h : rs.all p = true) :
    (sortCore rs).all p = true := by
  rw [List.all_eq_true] at h ⊢
  intro x hx
  simp only [sortCore, List.mem_insertionSort] at hx
  exact h x hx

theorem wfReply_strKeyOK (r : Val) (h : wfReply r = true) : strKeyOK r = true := by
  unfold wfReply at h
  obtain ⟨⟨t, b⟩, htb⟩ := Option.isSome_iff_exists.mp h
  obtain ⟨hti, _⟩ := extractTR_eq r t b htb
  obtain ⟨s, dt, hts, _, _⟩ := replyInstant_eq r t hti
  cases r with
  | vDict d =>
    simp only [replyTimeStr] at hts
    cases hg : getD d ("created_at") (Val.vStr "") with
    | vStr s2 => simp [strKeyOK, hg]
    | vNone => rw [hg] at hts; simp at hts
    | vBool b2 => rw [hg] at hts; simp at hts
    | vInt n => rw [hg] at hts; simp at hts
    | vRat q => rw [hg] at hts; simp at hts
    | vList xs => rw [hg] at hts; simp at hts
    | vDict dd => rw [hg] at hts; simp at hts
  | vNone => simp [replyTimeStr] at hts
  | vBool b2 => simp [replyTimeStr] at hts
  | vInt n => simp [replyTimeStr] at hts
  | vRat q => simp [replyTimeStr] at hts
  | vStr s2 => simp [replyTimeStr] at hts
  | vList xs => simp [replyTimeStr] at hts

theorem all_wf_strKey (rs : List Val) (h : rs.all wfReply = true) :
    rs.all strKeyOK = true := by
  rw [List.all_eq_true] at h ⊢
  exact fun x hx => wfReply_strKeyOK x (h x hx)

/-- C9 amended: for a well-formed reply (available timestamp `t`, role
`b`) the metrics loop applies exactly `c9step`: when
`previous_message_time` is available it is advanced to `t` regardless of
the reply's role, but when it is unavailable the state — including
`previous_message_time` — is left completely unchanged, even though the
reply's own timestamp is available; the advance is tied to the same guard
as the delta computation, not to timestamp availability alone (see
`c9_counterexample`). -/
theorem c9_previous_time_advance (st : MetState) (r : Val) (t : Int) (b : Bool)
    (h : extractTR r = some (t, b)) :
    metricsStep st r = Except.ok (c9step st t b) ∧
    (∀ p : Int, st.prev = some p → (c9step st t b).prev = some t) ∧
    (st.prev = none → c9step st t b = st) := by
  refine ⟨metricsStep_spec st r t b h, ?_, ?_⟩
  · intro p hp
    simp [c9step, hp]
  · intro hp
    simp [c9step, hp]

/-- Witness for C9's amended statement: an agent reply at 11:00 processed
from previous time 10:00 advances the previous time; processed from an
absent previous time it changes nothing. -/
theorem c9_previous_time_advance_witness :
    extractTR (Val.vDict [(("created_at"), Val.vStr ("2023-01-01T11:00:00Z")),
        (("agent"), Val.vBool true)]) = some (1672570800, true) ∧
    metricsStep ⟨none, [], some 1672567200⟩
        (Val.vDict [(("created_at"), Val.vStr ("2023-01-01T11:00:00Z")),
          (("agent"), Val.vBool true)]) =
      Except.ok (c9step ⟨none, [], some 1672567200⟩ 1672570800 true) ∧
    (c9step ⟨none, [], some 1672567200⟩ 1672570800 true).prev = some 1672570800 :=
  ⟨rfl,
   (c9_previous_time_advance ⟨none, [], some 1672567200⟩
      (Val.vDict [(("created_at"), Val.vStr ("2023-01-01T11:00:00Z")),
        (("agent"), Val.vBool true)]) 1672570800 true rfl).1,
   rfl⟩

/-- C3: for every ticket whose creation timestamp parses and whose replies
are all well formed, `average_response_time` equals the unweighted
arithmetic mean of the per-agent-reply intervals — each interval the hours
since the previous message of either role, starting from the ticket
creation instant, taken along the chronologically sorted reply sequence —
and it is null exactly when that interval list is empty (`avgSpec`
branches on emptiness). -/
theorem c3_average_response_time (cs : String) (dt : PDateTime) (rs : List Val)
    (hc : strptimeISO cs = some dt)
    (hr : rs.all wfReply = true)
    (_hch : nondecreasing ((extractList (sortCore rs)).map Prod.fst) = true) :
    (computeMetrics (Val.vStr cs) rs).map Prod.snd =
      Except.ok (avgSpec (toEpochSeconds dt) (extractList (sortCore rs))) := by
  have hsk := all_wf_strKey rs hr
  have hwf2 := sortCore_all wfReply rs hr
  simp only [computeMetrics, parseTime_of_strptime cs dt hc, ok_bind,
    sortedReplies, hsk, if_true]
  rw [metricsFold_wf (sortCore rs) hwf2 none [] (toEpochSeconds dt)]
  simp only [ok_bind, Except.map, List.nil_append]
  cases hL : specIntervals (toEpochSeconds dt) (extractList (sortCore rs)) with
  | nil => simp [avgSpec, hL]
  | cons q qs => simp [avgSpec, hL]

/-- Witness for C3: the claim's example — creation 10:00Z, agent replies
at 11:00Z and 13:00Z with a customer reply at 12:00Z between them — has
intervals of one hour each and average exactly 1. -/
theorem c3_average_response_time_witness :
    strptimeISO ("2023-01-01T10:00:00Z") = some ⟨2023, 1, 1, 10, 0, 0⟩ ∧
    ([Val.vDict [(("created_at"), Val.vStr ("2023-01-01T11:00:00Z")), (("agent"), Val.vBool true)],
      Val.vDict [(("created_at"), Val.vStr ("2023-01-01T12:00:00Z"))],
      Val.vDict [(("created_at"), Val.vStr ("2023-01-01T13:00:00Z")), (("agent"), Val.vBool true)]].all
        wfReply = true) ∧
    (computeMetrics (Val.vStr ("2023-01-01T10:00:00Z"))
        [Val.vDict [(("created_at"), Val.vStr ("2023-01-01T11:00:00Z")), (("agent"), Val.vBool true)],
         Val.vDict [(("created_at"), Val.vStr ("2023-01-01T12:00:00Z"))],
         Val.vDict [(("created_at"), Val.vStr ("2023-01-01T13:00:00Z")), (("agent"), Val.vBool true)]]).map
      Prod.snd = Except.ok (some 1) :=
  ⟨rfl, rfl,
   (c3_average_response_time ("2023-01-01T10:00:00Z") ⟨2023, 1, 1, 10, 0, 0⟩
      [Val.vDict [(("created_at"), Val.vStr ("2023-01-01T11:00:00Z")), (("agent"), Val.vBool true)],
       Val.vDict [(("created_at"), Val.vStr ("2023-01-01T12:00:00Z"))],
       Val.vDict [(("created_at"), Val.vStr ("2023-01-01T13:00:00Z")), (("agent"), Val.vBool true)]]
      rfl rfl rfl).trans (congrArg Except.ok (by
        have h1 : extractList (sortCore
            [Val.vDict [(("created_at"), Val.vStr ("2023-01-01T11:00:00Z")), (("agent"), Val.vBool true)],
             Val.vDict [(("created_at"), Val.vStr ("2023-01-01T12:00:00Z"))],
             Val.vDict [(("created_at"), Val.vStr ("2023-01-01T13:00:00Z")), (("agent"), Val.vBool true)]]) =
            [(1672570800, true), (1672574400, false), (1672578000, true)] := by decide
        have h2 : toEpochSeconds ⟨2023, 1, 1, 10, 0, 0⟩ = 1672567200 := by decide
        rw [h1, h2]
        simp only [avgSpec, specIntervals]
        norm_num
        intro h
        simp at h))⟩

/-- C4: for every ticket with well-formed replies, `first_response_time`
equals the hours between the ticket creation instant and the instant of
the chronologically first agent-classified reply, and it is non-null
exactly when both anchors exist (`frtSpec` matches on both): a missing or
falsy creation timestamp, or the absence of any agent reply, each make it
null. -/
theorem c4_first_response_time (cv : Val) (rs : List Val)
    (hc : createdOK cv = true)
    (hr : rs.all wfReply = true)
    (_hch : nondecreasing ((extractList (sortCore rs)).map Prod.fst) = true) :
    (computeMetrics cv rs).map Prod.fst =
      Except.ok (frtSpec (specCreatedOpt cv) (extractList (sortCore rs))) := by
  have hsk := all_wf_strKey rs hr
  have hwf2 := sortCore_all wfReply rs hr
  cases hcv : truthy cv with
  | false =>
    have hparse : parseTimeVal cv = Except.ok none := by simp [parseTimeVal, hcv]
    have hspec : specCreatedOpt cv = none := by simp [specCreatedOpt, hcv]
    simp only [computeMetrics, hparse, ok_bind, sortedReplies, hsk, if_true]
    rw [metricsFold_noanchor (sortCore rs) hwf2 none []]
    simp [ok_bind, Except.map, frtSpec, hspec]
  | true =>
    cases cv with
    | vStr s =>
      simp only [createdOK, hcv, if_true] at hc
      obtain ⟨dt, hdt⟩ := Option.isSome_iff_exists.mp hc
      have hparse := parseTime_of_strptime s dt hdt
      have hspec : specCreatedOpt (Val.vStr s) = some (toEpochSeconds dt) := by
        simp [specCreatedOpt, hcv, hdt]
      simp only [computeMetrics, hparse, ok_bind, sortedReplies, hsk, if_true]
      rw [metricsFold_wf (sortCore rs) hwf2 none [] (toEpochSeconds dt)]
      simp only [ok_bind, Except.map, hspec]
      have hm : mergeFA none (specFirstAgentTime (extractList (sortCore rs))) =
          specFirstAgentTime (extractList (sortCore rs)) := rfl
      rw [hm]
      cases hfa : specFirstAgentTime (extractList (sortCore rs)) with
      | none => simp [frtSpec, hspec, hfa]
      | some fa => simp [frtSpec, hspec, hfa]
    | vNone => simp [truthy] at hcv
    | vBool b => simp [createdOK, hcv] at hc
    | vInt n => simp [createdOK, hcv] at hc
    | vRat q => simp [createdOK, hcv] at hc
    | vList xs => simp [createdOK, hcv] at hc
    | vDict d => simp [createdOK, hcv] at hc

/-- Witness for C4: creation 10:00Z, a customer reply at 10:30Z, an agent
reply at 12:00Z — first response time exactly 2 hours; and with no
creation anchor the result is null. -/
theorem c4_first_response_time_witness :
    createdOK (Val.vStr ("2023-01-01T10:00:00Z")) = true ∧
    ([Val.vDict [(("created_at"), Val.vStr ("2023-01-01T10:30:00Z"))],
      Val.vDict [(("created_at"), Val.vStr ("2023-01-01T12:00:00Z")), (("agent"), Val.vBool true)]].all
        wfReply = true) ∧
    (computeMetrics (Val.vStr ("2023-01-01T10:00:00Z"))
        [Val.vDict [(("created_at"), Val.vStr ("2023-01-01T10:30:00Z"))],
         Val.vDict [(("created_at"), Val.vStr ("2023-01-01T12:00:00Z")), (("agent"), Val.vBool true)]]).map
      Prod.fst = Except.ok (some 2) :=
  ⟨rfl, rfl,
   (c4_first_response_time (Val.vStr ("2023-01-01T10:00:00Z"))
      [Val.vDict [(("created_at"), Val.vStr ("2023-01-01T10:30:00Z"))],
       Val.vDict [(("created_at"), Val.vStr ("2023-01-01T12:00:00Z")), (("agent"), Val.vBool true)]]
      rfl rfl rfl).trans (congrArg Except.ok (by
        have h1 : extractList (sortCore
            [Val.vDict [(("created_at"), Val.vStr ("2023-01-01T10:30:00Z"))],
             Val.vDict [(("created_at"), Val.vStr ("2023-01-01T12:00:00Z")), (("agent"), Val.vBool true)]]) =
            [(1672569000, false), (1672574400, true)] := by decide
        have h2 : specCreatedOpt (Val.vStr ("2023-01-01T10:00:00Z")) = some 1672567200 := by decide
        rw [h1, h2]
        simp only [frtSpec, specFirstAgentTime]
        norm_num))⟩

end SupportBee
